import Mathlib

/-
Verification of the Siamese-network lecture notebook
(src/c3w4_siamese_nets/C3_W4_1siamese.ipynb).

The notebook defines, in order:
  - normalize(x) = x / np.sqrt(np.sum(x * x, axis=-1, keepdims=True))   (Trax/jax numpy)
  - LSTM = tl.Serial(Embedding, LSTM, Mean(axis=1), Fn(Normalize, normalize))
  - SiameseTrax = tl.Parallel(LSTM, LSTM)   (bound to the name Siamese in the notebook)
  - show_layers(model, layer_prefix): prints the sublayer count and each sublayer
  - normalize2(x) = x / torch.sqrt(torch.sum(x * x, axis=-1, keepdims=True))  (torch)
  - class Sub(nn.Module): forward = normalize2(mean(lstm(embed(x)), axis=1))
  - cosine_similarity(x1, x2) = x1 @ x2.T
  - class Siamese(nn.Module): one Sub instance, forward(x1,x2) =
      cosine_similarity(self.sub(x1), self.sub(x2))

Tensors are embedded over the real numbers: a rank-1 tensor of length n is a
function Fin n → ℝ, a rank-2 tensor is Fin m → Fin n → ℝ, and so on.  The
library layers (nn.Embedding / tl.Embedding are a table lookup; nn.LSTM /
tl.LSTM are shape-preserving functions whose internals live in the external
frameworks, so they are abstracted as an arbitrary function carried in the
weight record).
-/

namespace C3W4

/-- Rank-1 real tensor of length n. -/
abbrev Vec (n : ℕ) := Fin n → ℝ

/-- Rank-2 real tensor of shape (m, n); the last axis is the second index. -/
abbrev Mat (m n : ℕ) := Fin m → Fin n → ℝ

/-- Rank-3 real tensor of shape (a, b, c). -/
abbrev Tensor3 (a b c : ℕ) := Fin a → Fin b → Fin c → ℝ

/-- Model of show_layers from the notebook.  A model object is represented by
the list of the string representations of its sublayers; the function returns
the list of strings passed to print, in order.  The source is:
    print(f"Total layers: {len(model.sublayers)}\n")
    for i in range(len(model.sublayers)):
        print('========')
        print(f'{layer_prefix}_{i}: {model.sublayers[i]}\n')
The embedded f-strings keep their explicit trailing newline character. -/
def emptyRepr : String := ""

def show_layers (sublayers : List String) ( layer_prefix : String) : List String :=
  ("Total layers: " ++ toString sublayers.length ++ "\n") ::
    (List.range sublayers.length).flatMap (fun i =>
      ["========", layer_prefix ++ "_" ++ toString i ++ ": " ++ sublayers.getD i emptyRepr ++ "\n"])

/-- Recursive description of the per-layer output of show_layers: for a list of
sublayers starting at index i, each sublayer contributes a separator line
followed by its labeled line. -/
def layerLines ( layer_prefix : String) : ℕ → List String → List String
  | _, [] => []
  | i, s :: rest =>
      "========" :: ( layer_prefix ++ "_" ++ toString i ++ ": " ++ s ++ "\n") ::
        layerLines layer_prefix (i + 1) rest

noncomputable section

/-- Embedding of normalize from the notebook (Trax numpy version), on a rank-1
tensor, where axis -1 is the whole vector:
    def normalize(x): return x / np.sqrt(np.sum(x * x, axis=-1, keepdims=True)) -/
def normalize {n : ℕ} (x : Vec n) : Vec n :=
  fun i => x i / Real.sqrt (∑ j, x j * x j)

/-- Embedding of normalize2 from the notebook (torch version), on a rank-1
tensor; the body is the same expression as normalize with torch in place of np:
    def normalize2(x): return x / torch.sqrt(torch.sum(x * x, axis=-1, keepdims=True)) -/
def normalize2 {n : ℕ} (x : Vec n) : Vec n :=
  fun i => x i / Real.sqrt (∑ j, x j * x j)

/-- normalize on a rank-2 tensor: the sum runs over the last axis and
keepdims=True broadcasts the division back over each row. -/
def normalizeMat {m n : ℕ} (x : Mat m n) : Mat m n :=
  fun i j => x i j / Real.sqrt (∑ k, x i k * x i k)

/-- normalize2 on a rank-2 tensor (torch version, same expression). -/
def normalize2Mat {m n : ℕ} (x : Mat m n) : Mat m n :=
  fun i j => x i j / Real.sqrt (∑ k, x i k * x i k)

/-- Transpose, modelling the .T attribute on a rank-2 torch tensor. -/
def transposeM {m n : ℕ} (x : Mat m n) : Mat n m :=
  fun i j => x j i

/-- Matrix product, modelling the torch @ operator on rank-2 tensors. -/
def matMul {m n k : ℕ} (a : Mat m n) (b : Mat n k) : Mat m k :=
  fun i j => ∑ l, a i l * b l j

/-- Embedding of cosine_similarity from the notebook, on rank-2 tensors:
    def cosine_similarity(x1, x2): return x1 @ x2.T -/
def cosine_similarity {m n k : ℕ} (x1 : Mat m n) (x2 : Mat k n) : Mat m k :=
  matMul x1 (transposeM x2)

/-- cosine_similarity from the notebook specialized to rank-1 tensors: on a
rank-1 torch tensor the .T attribute is the identity and @ is the inner
product, so x1 @ x2.T is the dot product of the two vectors. -/
def cosine_similarityVec {n : ℕ} (x1 x2 : Vec n) : ℝ :=
  ∑ i, x1 i * x2 i

/-- Spec-side definition: the dot product of two vectors. -/
def dotProd {n : ℕ} (u v : Vec n) : ℝ :=
  ∑ i, u i * v i

/-- Spec-side definition: the L2 (Euclidean) norm of a vector, the square root
of the sum of the squares of its entries. -/
def l2normV {n : ℕ} (v : Vec n) : ℝ :=
  Real.sqrt (∑ i, v i ^ 2)

/-- Spec-side definition: cosine similarity of two vectors as the spec words
it, the dot product divided by the product of the norms. -/
def cosineSpec {n : ℕ} (u v : Vec n) : ℝ :=
  dotProd u v / (l2normV u * l2normV v)

/-- Weights of one encoder branch: the class Sub from the notebook holds an
nn.Embedding table and an nn.LSTM.  The LSTM internals are library code
external to the repository, so the LSTM is abstracted as an arbitrary
shape-preserving function carried with the weights; the Trax Serial model
uses the same two kinds of weights. -/
structure Sub (vocab d : ℕ) where
  embedW : Fin vocab → Fin d → ℝ
  lstmF : {b L : ℕ} → Tensor3 b L d → Tensor3 b L d

/-- Embedding lookup layer (nn.Embedding / tl.Embedding): maps each token id
in the batch to its row of the embedding table. -/
def embedLayer {vocab d b L : ℕ} (w : Fin vocab → Fin d → ℝ)
    (x : Fin b → Fin L → Fin vocab) : Tensor3 b L d :=
  fun i t => w (x i t)

/-- Mean over axis 1 (the sequence axis) of a rank-3 tensor, modelling
x.mean(axis=1) and tl.Mean(axis=1). -/
def mean1 {b L d : ℕ} (x : Tensor3 b L d) : Mat b d :=
  fun i k => (∑ t, x i t k) / (L : ℝ)

/-- Embedding of Sub.forward from the notebook:
    def forward(self, x):
        x = self.embed(x)
        x, hidden = self.lstm(x)
        x = x.mean(axis=1)
        x = normalize2(x)
        return x -/
def Sub.forward {vocab d b L : ℕ} (p : Sub vocab d)
    (x : Fin b → Fin L → Fin vocab) : Mat b d :=
  normalize2Mat (mean1 (p.lstmF (embedLayer p.embedW x)))

/-- Embedding of the Trax Serial model bound to the name LSTM in the notebook:
    LSTM = tl.Serial(tl.Embedding(vocab_size, d_feature),
                     tl.LSTM(model_dimension),
                     tl.Mean(axis=1),
                     tl.Fn(Normalize, lambda x: normalize(x)))
Serial composes the layers in order, so the model applies the embedding
lookup, the LSTM, the mean over axis 1, then normalize. -/
def LSTM {vocab d b L : ℕ} (p : Sub vocab d)
    (x : Fin b → Fin L → Fin vocab) : Mat b d :=
  normalizeMat (mean1 (p.lstmF (embedLayer p.embedW x)))

/-- The Trax Parallel combinator on two one-input layers: applies the first
layer to the first input and the second layer to the second input. -/
def Parallel {α β γ δ : Type} (f : α → β) (g : γ → δ) : α × γ → β × δ :=
  fun x => (f x.1, g x.2)

/-- Embedding of the Trax Siamese model from the notebook,
Siamese = tl.Parallel(LSTM, LSTM): the one Serial object (here, the one
weight record p) is passed to Parallel twice. -/
def SiameseTrax {vocab d b L : ℕ} (p : Sub vocab d) :
    ((Fin b → Fin L → Fin vocab) × (Fin b → Fin L → Fin vocab)) →
      Mat b d × Mat b d :=
  Parallel (LSTM p) (LSTM p)

/-- The PyTorch Siamese module: its __init__ stores a single Sub instance,
self.sub = Sub(vocab_size, model_dimension), so the named parameters hold one
copy of the embedding and LSTM weights. -/
structure Siamese (vocab d : ℕ) where
  sub : Sub vocab d

/-- Embedding of Siamese.forward from the notebook:
    def forward(self, x1, x2):
        x1 = self.sub(x1)
        x2 = self.sub(x2)
        return cosine_similarity(x1, x2) -/
def Siamese.forward {vocab d b L : ℕ} (p : Siamese vocab d)
    (x1 x2 : Fin b → Fin L → Fin vocab) : Mat b b :=
  cosine_similarity (p.sub.forward x1) (p.sub.forward x2)

/-- The encoder applied by the first branch of Siamese.forward, the call site
x1 = self.sub(x1). -/
def Siamese.branch1 {vocab d b L : ℕ} (p : Siamese vocab d)
    (x : Fin b → Fin L → Fin vocab) : Mat b d :=
  p.sub.forward x

/-- The encoder applied by the second branch of Siamese.forward, the call site
x2 = self.sub(x2). -/
def Siamese.branch2 {vocab d b L : ℕ} (p : Siamese vocab d)
    (x : Fin b → Fin L → Fin vocab) : Mat b d :=
  p.sub.forward x

end

/-
Helper lemmas shared by several claims.
-/

lemma sumSq_nonneg {n : ℕ} (x : Vec n) : 0 ≤ ∑ j, x j * x j :=
  Finset.sum_nonneg fun j _ => mul_self_nonneg (x j)

lemma sumSq_normalize {n : ℕ} (x : Vec n) (h : (∑ j, x j * x j) ≠ 0) :
    (∑ i, normalize x i * normalize x i) = 1 := by
  have hs : Real.sqrt (∑ j, x j * x j) * Real.sqrt (∑ j, x j * x j) = ∑ j, x j * x j :=
    Real.mul_self_sqrt (sumSq_nonneg x)
  simp only [normalize, div_mul_div_comm]
  rw [← Finset.sum_div, hs]
  exact div_self h

lemma normalize2_eq {n : ℕ} (x : Vec n) : normalize2 x = normalize x := rfl

lemma normalize2Mat_eq {m n : ℕ} (x : Mat m n) : normalize2Mat x = normalizeMat x := rfl

lemma layerLines_eq ( pre : String) (subs : List String) :
    ∀ k : ℕ,
      (List.range subs.length).flatMap
          (fun i => ["========", pre ++ "_" ++ toString (k + i) ++ ": " ++
            subs.getD i emptyRepr ++ "\n"])
        = layerLines pre k subs := by
  induction subs with
  | nil => intro k; simp [layerLines]
  | cons s rest ih =>
    intro k
    rw [List.length_cons, List.range_succ_eq_map, List.flatMap_cons, List.flatMap_map]
    simp only [layerLines, List.getD_cons_zero, List.getD_cons_succ, Nat.add_zero,
      Nat.succ_eq_add_one, List.cons_append, List.nil_append]
    rw [← ih (k + 1)]
    congr 2
    apply List.flatMap_congr
    intro a _
    have hk : k + (a + 1) = k + 1 + a := by omega
    rw [hk]

/-- C1: for every input vector x whose L2 norm is nonzero, the output of
normalize (and of normalize2) has Euclidean length 1 along the last axis: the
sum of the squares of the entries of normalize(x) equals 1. -/
theorem claim_C1 {n : ℕ} (x : Vec n) (h : (∑ j, x j * x j) ≠ 0) :
    (∑ i, normalize x i ^ 2) = 1 ∧ l2normV (normalize x) = 1 ∧
    (∑ i, normalize2 x i ^ 2) = 1 ∧ l2normV (normalize2 x) = 1 := by
  have h1 : (∑ i, normalize x i ^ 2) = 1 := by
    calc (∑ i, normalize x i ^ 2) = ∑ i, normalize x i * normalize x i :=
          Finset.sum_congr rfl fun i _ => by ring
      _ = 1 := sumSq_normalize x h
  have h2 : l2normV (normalize x) = 1 := by
    unfold l2normV
    rw [h1, Real.sqrt_one]
  exact ⟨h1, h2, by simpa [normalize2_eq] using h1, by simpa [normalize2_eq] using h2⟩

/-- Witness for C1 at the concrete vector (1, 0). -/
theorem claim_C1_witness :
    ((∑ j, (![(1:ℝ), 0]) j * (![(1:ℝ), 0]) j) ≠ 0) ∧
    l2normV (normalize ![(1:ℝ), 0]) = 1 := by
  have h : (∑ j, (![(1:ℝ), 0]) j * (![(1:ℝ), 0]) j) ≠ 0 := by
    norm_num [Fin.sum_univ_two]
  exact ⟨h, (claim_C1 _ h).2.1⟩

/-- C2: the two branches of the Siamese model share weights.  In the PyTorch
version both call sites of Siamese.forward use the single Sub instance stored
in the module, so on every weight assignment the first-branch encoding of x
equals the second-branch encoding of x; in the Trax version Parallel receives
the same Serial object twice, so the two components of SiameseTrax applied to
the pair (x, x) agree. -/
theorem claim_C2 {vocab d b L : ℕ} (p : Siamese vocab d) (q : Sub vocab d)
    (x : Fin b → Fin L → Fin vocab) :
    Siamese.branch1 p x = Siamese.branch2 p x ∧
    (SiameseTrax q (x, x)).1 = (SiameseTrax q (x, x)).2 :=
  ⟨rfl, rfl⟩

/-- C3: normalize(x) equals x divided elementwise by the square root of the
sum of the squares of x along the last axis (the L2 norm along axis -1), on
rank-1 and rank-2 tensors, and normalize2 computes the same expression. -/
theorem claim_C3 {n m k : ℕ} (x : Vec n) (y : Mat m k) :
    normalize x = (fun i => x i / l2normV x) ∧
    normalize2 x = (fun i => x i / l2normV x) ∧
    normalizeMat y = (fun i j => y i j / l2normV (y i)) ∧
    normalize2Mat y = (fun i j => y i j / l2normV (y i)) := by
  have hsum : ∀ {p : ℕ} (v : Vec p), (∑ j, v j ^ 2) = ∑ j, v j * v j :=
    fun v => Finset.sum_congr rfl fun j _ => by ring
  refine ⟨?_, ?_, ?_, ?_⟩
  · funext i
    simp only [normalize, l2normV, hsum]
  · funext i
    simp only [normalize2, l2normV, hsum]
  · funext i j
    simp only [normalizeMat, l2normV, hsum]
  · funext i j
    simp only [normalize2Mat, l2normV, hsum]

/-- C4: the encoder is exactly the four-stage composition embedding lookup,
then LSTM, then mean over axis 1, then L2 normalization, in that order, both
for Sub.forward in the PyTorch version and for the Trax Serial model; with the
same weights the two encoders compute the same function. -/
theorem claim_C4 {vocab d b L : ℕ} (p : Sub vocab d) (x : Fin b → Fin L → Fin vocab) :
    Sub.forward p x = normalize2Mat (mean1 (p.lstmF (embedLayer p.embedW x))) ∧
    LSTM p x = normalizeMat (mean1 (p.lstmF (embedLayer p.embedW x))) ∧
    Sub.forward p x = LSTM p x := by
  refine ⟨rfl, rfl, ?_⟩
  simp only [Sub.forward, LSTM, normalize2Mat_eq]

/-- C5: Siamese.forward(x1, x2) returns cosine_similarity applied to the two
branch encodings produced by the shared encoder sub. -/
theorem claim_C5 {vocab d b L : ℕ} (p : Siamese vocab d)
    (x1 x2 : Fin b → Fin L → Fin vocab) :
    Siamese.forward p x1 x2 =
      cosine_similarity (Sub.forward p.sub x1) (Sub.forward p.sub x2) := rfl

/-- C6: cosine_similarity(x1, x2) is the matrix product of x1 with the
transpose of x2; its (i, j) entry is the dot product of row i of x1 with row j
of x2, and when both rows are unit-normalized that entry equals the cosine
similarity of the rows. -/
theorem claim_C6 {m n k : ℕ} (x1 : Mat m n) (x2 : Mat k n) (i : Fin m) (j : Fin k)
    (h1 : l2normV (x1 i) = 1) (h2 : l2normV (x2 j) = 1) :
    cosine_similarity x1 x2 = matMul x1 (transposeM x2) ∧
    cosine_similarity x1 x2 i j = dotProd (x1 i) (x2 j) ∧
    cosine_similarity x1 x2 i j = cosineSpec (x1 i) (x2 j) := by
  refine ⟨rfl, rfl, ?_⟩
  unfold cosineSpec
  rw [h1, h2, mul_one, div_one]
  rfl

/-- Witness for C6 at the one-row matrix whose row is (1, 0). -/
theorem claim_C6_witness :
    l2normV ((![![(1:ℝ), 0]] : Mat 1 2) 0) = 1 ∧
    cosine_similarity (![![(1:ℝ), 0]] : Mat 1 2) ![![(1:ℝ), 0]] 0 0 =
      cosineSpec ((![![(1:ℝ), 0]] : Mat 1 2) 0) ((![![(1:ℝ), 0]] : Mat 1 2) 0) := by
  have h : l2normV ((![![(1:ℝ), 0]] : Mat 1 2) 0) = 1 := by
    norm_num [l2normV, Fin.sum_univ_two]
  exact ⟨h, (claim_C6 _ _ 0 0 h h).2.2⟩

/-- C7: the cosine similarity of a unit vector with itself equals 1; in
particular this holds for the output of normalize or normalize2 on any input
with nonzero sum of squares. -/
theorem claim_C7 {n : ℕ} (v x : Vec n) (hv : (∑ i, v i * v i) = 1)
    (hx : (∑ j, x j * x j) ≠ 0) :
    cosine_similarityVec v v = 1 ∧
    cosine_similarityVec (normalize x) (normalize x) = 1 ∧
    cosine_similarityVec (normalize2 x) (normalize2 x) = 1 := by
  refine ⟨hv, sumSq_normalize x hx, ?_⟩
  simp only [cosine_similarityVec, normalize2_eq]
  exact sumSq_normalize x hx

/-- Witness for C7 at the concrete unit vector (1, 0). -/
theorem claim_C7_witness :
    ((∑ i, (![(1:ℝ), 0]) i * (![(1:ℝ), 0]) i) = 1) ∧
    cosine_similarityVec (![(1:ℝ), 0]) ![(1:ℝ), 0] = 1 ∧
    cosine_similarityVec (normalize ![(1:ℝ), 0]) (normalize ![(1:ℝ), 0]) = 1 := by
  have hv : (∑ i, (![(1:ℝ), 0]) i * (![(1:ℝ), 0]) i) = 1 := by
    norm_num [Fin.sum_univ_two]
  have hx : (∑ j, (![(1:ℝ), 0]) j * (![(1:ℝ), 0]) j) ≠ 0 := by
    rw [hv]
    norm_num
  exact ⟨hv, (claim_C7 _ (![(1:ℝ), 0]) hv hx).1, (claim_C7 (![(1:ℝ), 0]) _ hv hx).2.1⟩

/-- C9: on an input vector all of whose entries are zero, the denominator
sqrt(sum(x*x, axis=-1)) is 0 and the division is unguarded: normalize and
normalize2 return the input (the junk value of the total division) rather than
raising an error, and the result is not a unit vector, since its sum of
squares is 0, not 1. -/
theorem claim_C9 {n : ℕ} (x : Vec n) (h0 : ∀ j, x j = 0) :
    Real.sqrt (∑ j, x j * x j) = 0 ∧
    normalize x = x ∧
    normalize2 x = x ∧
    (∑ i, normalize x i * normalize x i) ≠ 1 ∧
    (∑ i, normalize2 x i * normalize2 x i) ≠ 1 := by
  have hs : (∑ j, x j * x j) = 0 :=
    Finset.sum_eq_zero fun j _ => by rw [h0 j]; ring
  have hsqrt : Real.sqrt (∑ j, x j * x j) = 0 := by
    rw [hs, Real.sqrt_zero]
  have hnorm : normalize x = x := by
    funext i
    simp only [normalize]
    rw [hsqrt, div_zero, h0 i]
  have hne : (∑ i, normalize x i * normalize x i) ≠ 1 := by
    rw [hnorm, hs]
    norm_num
  refine ⟨hsqrt, hnorm, ?_, hne, ?_⟩
  · rw [normalize2_eq]
    exact hnorm
  · simpa [normalize2_eq] using hne

/-- Witness for C9 at the concrete zero vector (0, 0). -/
theorem claim_C9_witness :
    (∀ j, (![(0:ℝ), 0]) j = 0) ∧
    Real.sqrt (∑ j, (![(0:ℝ), 0]) j * (![(0:ℝ), 0]) j) = 0 ∧
    (∑ i, normalize ![(0:ℝ), 0] i * normalize ![(0:ℝ), 0] i) ≠ 1 := by
  have h0 : ∀ j, (![(0:ℝ), 0]) j = 0 := by
    intro j
    fin_cases j <;> norm_num
  obtain ⟨a, b, c, d, e⟩ := claim_C9 (![(0:ℝ), 0]) h0
  exact ⟨h0, a, d⟩

/-- C10: normalize is idempotent on vectors with nonzero sum of squares, and
the same for normalize2; on rank-2 tensors the keepdims broadcast makes
normalize act row by row, preserving the shape of its input. -/
theorem claim_C10 {n m k : ℕ} (x : Vec n) (y : Mat m k)
    (h : (∑ j, x j * x j) ≠ 0) :
    normalize (normalize x) = normalize x ∧
    normalize2 (normalize2 x) = normalize2 x ∧
    normalizeMat y = (fun i => normalize (y i)) := by
  have key : normalize (normalize x) = normalize x := by
    funext i
    show normalize x i / Real.sqrt (∑ j, normalize x j * normalize x j) = normalize x i
    rw [sumSq_normalize x h, Real.sqrt_one, div_one]
  refine ⟨key, ?_, rfl⟩
  simp only [normalize2_eq]
  exact key

/-- Witness for C10 at the concrete vector (1, 0). -/
theorem claim_C10_witness :
    ((∑ j, (![(1:ℝ), 0]) j * (![(1:ℝ), 0]) j) ≠ 0) ∧
    normalize (normalize ![(1:ℝ), 0]) = normalize ![(1:ℝ), 0] := by
  have h : (∑ j, (![(1:ℝ), 0]) j * (![(1:ℝ), 0]) j) ≠ 0 := by
    norm_num [Fin.sum_univ_two]
  exact ⟨h, (claim_C10 (![(1:ℝ), 0]) (![![(1:ℝ), 0]] : Mat 1 2) h).1⟩

/-- C8 counterexample: on a model with one sublayer, the printed output is not
just the header followed by the labeled entry, because show_layers also prints
a separator line before each entry. -/
theorem claim_C8_counterexample :
    show_layers ["Embedding_500_128"] "Serial.sublayers" ≠
      ["Total layers: 1\n", "Serial.sublayers_0: Embedding_500_128\n"] := by
  decide

/-- C8 (amended): show_layers first prints the header line with the total
count of sublayers, then, for each sublayer in index order 0, 1, ...,
len(model.sublayers)-1, prints a separator line of equal signs followed by
exactly one entry labeled with the given prefix and the index; it prints
nothing else and does not modify the model (the function is pure: it only
returns the printed lines). -/
theorem claim_C8 (subs : List String) ( pre : String) :
    show_layers subs pre =
      ("Total layers: " ++ toString subs.length ++ "\n") :: layerLines pre 0 subs := by
  unfold show_layers
  congr 1
  rw [← layerLines_eq pre subs 0]
  simp only [Nat.zero_add]

end C3W4
